import Mathlib

/-!
Verification of the delta-tracking and percentage-derivation engine of the
sysinfo FreeBSD backend.

The embedding follows the source files:

- src/freebsd/processor.rs : CpuTime, CpuPct, pct_diff, Processor refresh,
  the global aggregate of ProcessorSet.refresh_all;
- src/freebsd/system.rs    : the pid table (refresh_processes,
  refresh_process), the memory aggregate (refresh_memory,
  get_used_memory, get_used_swap);
- src/freebsd/network.rs   : NetworkData.refresh_counters and
  Networks.refresh_networks_list.

Modelling conventions: Rust i64 and u64 values become Int and Nat; u64
subtraction, which wraps modulo 2 to the 64 in release builds, is modelled
by sub64 with an explicit modulus; f32 arithmetic that is guarded away
from division by zero is modelled exactly over the rationals; the one
unguarded f32 division (DivAssign for CpuPct) is modelled by the type FQ,
which carries the IEEE results of dividing a finite value by zero (NaN and
the infinities). HashMap is modelled by an association list with
replace-on-insert semantics (mlookup and minsert). The fallible OS query
that feeds each refresh is passed in as an explicit snapshot argument; a
Rust panic (a failed assert) is modelled as the none result of an
Option-valued function.
-/

namespace Sysinfo

/-! Association-list model of std::collections::HashMap: mlookup is get,
minsert is insert with replacement of an existing key. -/

def mlookup {κ α : Type} [DecidableEq κ] : List (κ × α) → κ → Option α
  | [], _ => none
  | (k, v) :: rest, q => if k = q then some v else mlookup rest q

def minsert {κ α : Type} [DecidableEq κ] : List (κ × α) → κ → α → List (κ × α)
  | [], q, v => [(q, v)]
  | (k, w) :: rest, q, v =>
      if k = q then (q, v) :: rest else (k, w) :: minsert rest q v

/-! CPU model, from src/freebsd/processor.rs. -/

/-- CpuTime from processor.rs lines 11 to 18: five cumulative i64 tick
buckets. -/
structure CpuTime where
  user_time : ℤ
  nice_time : ℤ
  system_time : ℤ
  interrupt_time : ℤ
  idle_time : ℤ
deriving DecidableEq

/-- CpuPct from processor.rs lines 20 to 27: five derived f32 percentages,
modelled exactly over the rationals (every value produced by pct_diff is a
finite quotient of integers). -/
structure CpuPct where
  user_pct : ℚ
  nice_pct : ℚ
  system_pct : ℚ
  interrupt_pct : ℚ
  idle_pct : ℚ
deriving DecidableEq

/-- CpuPct::default(): every component 0.0. -/
def CpuPct.zero : CpuPct := ⟨0, 0, 0, 0, 0⟩

/-- The Add impl for CpuPct (processor.rs lines 29 to 40): componentwise
addition. -/
def CpuPct.add (a b : CpuPct) : CpuPct :=
  ⟨a.user_pct + b.user_pct, a.nice_pct + b.nice_pct, a.system_pct + b.system_pct,
    a.interrupt_pct + b.interrupt_pct, a.idle_pct + b.idle_pct⟩

/-- The local user_diff of CpuTime::pct_diff (processor.rs line 61). -/
def CpuTime.user_diff (self previous : CpuTime) : ℚ :=
  ((self.user_time - previous.user_time : ℤ) : ℚ)

/-- The local nice_diff of CpuTime::pct_diff (processor.rs line 62). -/
def CpuTime.nice_diff (self previous : CpuTime) : ℚ :=
  ((self.nice_time - previous.nice_time : ℤ) : ℚ)

/-- The local system_diff of CpuTime::pct_diff (processor.rs line 63). -/
def CpuTime.system_diff (self previous : CpuTime) : ℚ :=
  ((self.system_time - previous.system_time : ℤ) : ℚ)

/-- The local interrupt_diff of CpuTime::pct_diff (processor.rs line 64). -/
def CpuTime.interrupt_diff (self previous : CpuTime) : ℚ :=
  ((self.interrupt_time - previous.interrupt_time : ℤ) : ℚ)

/-- The local idle_diff of CpuTime::pct_diff (processor.rs line 65). -/
def CpuTime.idle_diff (self previous : CpuTime) : ℚ :=
  ((self.idle_time - previous.idle_time : ℤ) : ℚ)

/-- The local total of CpuTime::pct_diff (processor.rs line 66): the sum of
the five bucket deltas. -/
def CpuTime.total_diff (self previous : CpuTime) : ℚ :=
  self.user_diff previous + self.nice_diff previous + self.system_diff previous +
    self.interrupt_diff previous + self.idle_diff previous

/-- CpuTime::pct_diff (processor.rs lines 60 to 78): when the total delta
is strictly positive, each bucket yields 100 * bucket_delta / total_delta;
otherwise the result is None and no division happens. -/
def CpuTime.pct_diff (self previous : CpuTime) : Option CpuPct :=
  if 0 < self.total_diff previous then
    some
      { user_pct := 100 * self.user_diff previous / self.total_diff previous
        nice_pct := 100 * self.nice_diff previous / self.total_diff previous
        system_pct := 100 * self.system_diff previous / self.total_diff previous
        interrupt_pct := 100 * self.interrupt_diff previous / self.total_diff previous
        idle_pct := 100 * self.idle_diff previous / self.total_diff previous }
  else
    none

/-- The delta-tracking state of Processor (processor.rs lines 98 to 105);
cpu_id and the ProcCommon enrichment fields play no role in the claims. -/
structure Processor where
  cp_time : CpuTime
  last_cp_time : CpuTime
  cpu_pct : CpuPct
deriving DecidableEq

/-- Processor::update_cp_time (processor.rs lines 252 to 255). -/
def Processor.update_cp_time (p : Processor) (cp_time : CpuTime) : Processor :=
  { p with last_cp_time := p.cp_time, cp_time := cp_time }

/-- Processor::refresh_and_get_cpu_usages (processor.rs lines 257 to 261):
install the new percentages only when pct_diff yields Some. -/
def Processor.refresh_and_get_cpu_usages (p : Processor) : Processor :=
  match p.cp_time.pct_diff p.last_cp_time with
  | some pct_diff => { p with cpu_pct := pct_diff }
  | none => p

/-! IEEE model of the one unguarded f32 division: DivAssign of u8 for
CpuPct (processor.rs lines 42 to 51) divides each component by the count
with no zero check, so the model must carry the IEEE results of division
by zero. -/

/-- An f32 value that is either finite (exact rational), NaN, or an
infinity. Only the division in DivAssign can leave the finite range. -/
inductive FQ where
  | fin (q : ℚ)
  | nan
  | inf
  | ninf
deriving DecidableEq

/-- IEEE division of a finite f32 value by a u8 count cast to f32: for a
zero count, 0/0 is NaN and x/0 is a signed infinity; otherwise exact. -/
def fdiv (a : ℚ) (n : ℕ) : FQ :=
  if n = 0 then
    if a = 0 then FQ.nan else if 0 < a then FQ.inf else FQ.ninf
  else
    FQ.fin (a / n)

/-- A CpuPct whose components have been through the unguarded division. -/
structure CpuPctF where
  user_pct : FQ
  nice_pct : FQ
  system_pct : FQ
  interrupt_pct : FQ
  idle_pct : FQ
deriving DecidableEq

/-- Inclusion of the finite percentages into the IEEE-valued model. -/
def CpuPct.toF (c : CpuPct) : CpuPctF :=
  ⟨FQ.fin c.user_pct, FQ.fin c.nice_pct, FQ.fin c.system_pct,
    FQ.fin c.interrupt_pct, FQ.fin c.idle_pct⟩

/-- The DivAssign impl for CpuPct (processor.rs lines 42 to 51): divide
every component by the count, unconditionally. -/
def CpuPct.div_assign (c : CpuPct) (rhs : ℕ) : CpuPctF :=
  ⟨fdiv c.user_pct rhs, fdiv c.nice_pct rhs, fdiv c.system_pct rhs,
    fdiv c.interrupt_pct rhs, fdiv c.idle_pct rhs⟩

/-- The global-aggregate step of ProcessorSet::refresh_all (processor.rs
lines 143 to 147): fold the per-core percentages with the Add impl
starting from CpuPct::default(), then apply the DivAssign impl with
num_cpus. -/
def ProcessorSet.global_pct (cpus : List CpuPct) (num_cpus : ℕ) : CpuPctF :=
  CpuPct.div_assign (cpus.foldl CpuPct.add CpuPct.zero) num_cpus

/-! Process-table model, from src/freebsd/process.rs and
src/freebsd/system.rs. -/

/-- ProcessStatus from process.rs lines 19 to 36. -/
inductive ProcessStatus where
  | Unknown
  | Forking
  | Runnable
  | Sleeping
  | Stopped
  | Zombie
  | InterruptWait
  | LockWait
deriving DecidableEq

/-- num::FromPrimitive::from_i8 for ProcessStatus with unwrap_or(Unknown),
as used at system.rs line 367. -/
def ProcessStatus.fromInt (i : ℤ) : ProcessStatus :=
  if i = 0 then ProcessStatus.Unknown
  else if i = 1 then ProcessStatus.Forking
  else if i = 2 then ProcessStatus.Runnable
  else if i = 3 then ProcessStatus.Sleeping
  else if i = 4 then ProcessStatus.Stopped
  else if i = 5 then ProcessStatus.Zombie
  else if i = 6 then ProcessStatus.InterruptWait
  else if i = 7 then ProcessStatus.LockWait
  else ProcessStatus.Unknown

/-- ProcFiles from process.rs lines 45 to 49. -/
structure ProcFiles where
  root : String
  cwd : String
deriving DecidableEq

/-- DiskUsage as filled at system.rs lines 375 to 381. -/
structure DiskUsage where
  total_written_bytes : ℕ
  written_bytes : ℕ
  total_read_bytes : ℕ
  read_bytes : ℕ
deriving DecidableEq

/-- Process from process.rs lines 52 to 82. The f32 cpu field only ever
holds a value copied from the snapshot, so it stays exact. -/
structure Process where
  pid : ℤ
  ppid : Option ℤ
  start : ℕ
  comm : String
  size : ℕ
  rssize : ℕ
  ssize : ℕ
  stat : ProcessStatus
  env : List String
  argv : List String
  files : ProcFiles
  exe : String
  cpu : ℚ
  disk_usage : DiskUsage
deriving DecidableEq

/-- One already-materialized record of the procstat snapshot: the fields
read from kinfo_proc plus the argv, env, file and pathname extractions
performed by the excluded OS adapter (system.rs lines 326 to 353). -/
structure KinfoProc where
  ki_pid : ℤ
  ki_ppid : ℤ
  ki_size : ℕ
  ki_ssize : ℕ
  ki_rssize : ℕ
  ki_stat : ℤ
  ki_comm : String
  ki_start : ℕ
  ru_inblock : ℕ
  ru_oublock : ℕ
  ki_pctcpu : ℚ
  env : List String
  argv : List String
  files : ProcFiles
  exe : String
deriving DecidableEq

/-- The Process value inserted for one snapshot record by
System::refresh_processes (system.rs lines 354 to 384). -/
def mkProcess (r : KinfoProc) : Process :=
  { pid := r.ki_pid
    ppid := some r.ki_ppid
    start := r.ki_start
    comm := r.ki_comm
    size := r.ki_size
    rssize := r.ki_rssize
    ssize := r.ki_ssize
    stat := ProcessStatus.fromInt r.ki_stat
    env := r.env
    argv := r.argv
    files := r.files
    exe := r.exe
    cpu := r.ki_pctcpu
    disk_usage :=
      { total_written_bytes := r.ru_oublock
        written_bytes := r.ru_oublock
        total_read_bytes := r.ru_inblock
        read_bytes := r.ru_inblock } }

/-- System::refresh_processes (system.rs lines 319 to 391): for every
record of the snapshot, insert the freshly built Process into the pid
table. The existing table is the fold seed; the source has no clear. -/
def refresh_processes (pids : List (ℤ × Process)) (snapshot : List KinfoProc) :
    List (ℤ × Process) :=
  snapshot.foldl (fun t r => minsert t r.ki_pid (mkProcess r)) pids

/-- System::refresh_process (system.rs lines 393 to 417). The kinfo
argument is the procstat_getprocs result: some record when pcount is 1,
none otherwise. The outer none result models the assert_eq of line 399
failing, which aborts the program. -/
def refresh_process (pids : List (ℤ × Process)) (pid : ℤ)
    (kinfo : Option KinfoProc) : Option (List (ℤ × Process) × Bool) :=
  match kinfo with
  | some r =>
      if r.ki_pid = pid then
        match mlookup pids pid with
        | some p =>
            some (minsert pids pid
              { p with
                ppid := some r.ki_ppid
                size := r.ki_size
                ssize := r.ki_ssize
                rssize := r.ki_rssize }, true)
        | none => some (pids, false)
      else
        none
  | none => some (pids, false)

/-! The 64-bit wrapping subtraction shared by the network deltas and the
memory aggregate. -/

/-- Two to the 64, the u64 modulus. -/
def U64_MOD : ℕ := 18446744073709551616

/-- Rust u64 subtraction as compiled in release mode: wrapping modulo two
to the 64 (debug builds abort on the same underflow). -/
def sub64 (a b : ℕ) : ℕ := (a + U64_MOD - b) % U64_MOD

/-! Network model, from src/freebsd/network.rs. -/

/-- The counters of one ifmibdata general record as read at network.rs
lines 40 to 54. -/
structure Ifmibdata where
  ifi_mtu : ℕ
  ifi_ibytes : ℕ
  ifi_obytes : ℕ
  ifi_ipackets : ℕ
  ifi_opackets : ℕ
  ifi_ierrors : ℕ
  ifi_oerrors : ℕ
deriving DecidableEq

/-- One nix InterfaceAddress as consumed by refresh_networks_list: its
interface name and whether its address field is Some. -/
structure InterfaceAddress where
  interface_name : String
  has_address : Bool
deriving DecidableEq

/-- NetworkData from network.rs lines 13 to 28. -/
structure NetworkData where
  ifaddrs : List InterfaceAddress
  mtu : ℕ
  received_bytes : ℕ
  transmitted_bytes : ℕ
  received_packets : ℕ
  transmitted_packets : ℕ
  receive_errors : ℕ
  transmit_errors : ℕ
  last_received_bytes : ℕ
  last_transmitted_bytes : ℕ
  last_received_packets : ℕ
  last_transmitted_packets : ℕ
  last_receive_errors : ℕ
  last_transmit_errors : ℕ
deriving DecidableEq

/-- The Default impl for NetworkData (network.rs lines 64 to 83). -/
def NetworkData.default : NetworkData :=
  ⟨[], 0, 0, 0, 0, 0, 0, 0, 0, 0, 0, 0, 0, 0⟩

/-- The body of the successful ifmibdata read in refresh_counters
(network.rs lines 40 to 54): last-interval fields become the wrapping
difference of the new cumulative values against the stored totals, and
the stored totals become the new cumulative values. -/
def applyIfdata (nd : NetworkData) (d : Ifmibdata) : NetworkData :=
  { nd with
    mtu := d.ifi_mtu
    last_received_bytes := sub64 d.ifi_ibytes nd.received_bytes
    last_transmitted_bytes := sub64 d.ifi_obytes nd.transmitted_bytes
    last_received_packets := sub64 d.ifi_ipackets nd.received_packets
    last_transmitted_packets := sub64 d.ifi_opackets nd.transmitted_packets
    last_receive_errors := sub64 d.ifi_ierrors nd.receive_errors
    last_transmit_errors := sub64 d.ifi_oerrors nd.transmit_errors
    received_bytes := d.ifi_ibytes
    transmitted_bytes := d.ifi_obytes
    received_packets := d.ifi_ipackets
    transmitted_packets := d.ifi_opackets
    receive_errors := d.ifi_ierrors
    transmit_errors := d.ifi_oerrors }

/-- The search loop of refresh_counters (network.rs lines 33 to 60): walk
the stored ifaddrs and take the first one whose name resolves through the
kernel query, here abstracted as the env function (if_nametoindex plus the
net.link.generic.ifdata sysctl). -/
def findIfdata (env : String → Option Ifmibdata) :
    List InterfaceAddress → Option Ifmibdata
  | [] => none
  | a :: rest =>
      match env a.interface_name with
      | some d => some d
      | none => findIfdata env rest

/-- NetworkData::refresh_counters (network.rs lines 31 to 61): apply the
first resolvable ifmibdata, or change nothing when no query succeeds. -/
def NetworkData.refresh_counters (nd : NetworkData)
    (env : String → Option Ifmibdata) : NetworkData :=
  match findIfdata env nd.ifaddrs with
  | some d => applyIfdata nd d
  | none => nd

/-- The per-observation body of the loop in Networks::refresh_networks_list
(network.rs lines 148 to 168): skip address-less records; update an
existing entry after pushing the observed address; otherwise insert a
fresh tracker seeded from a default and this one address. -/
def refresh_step (env : String → Option Ifmibdata)
    (m : List (String × NetworkData)) (ifaddr : InterfaceAddress) :
    List (String × NetworkData) :=
  if ifaddr.has_address then
    match mlookup m ifaddr.interface_name with
    | some val =>
        minsert m ifaddr.interface_name
          (NetworkData.refresh_counters { val with ifaddrs := val.ifaddrs ++ [ifaddr] } env)
    | none =>
        minsert m ifaddr.interface_name
          (NetworkData.refresh_counters { NetworkData.default with ifaddrs := [ifaddr] } env)
  else
    m

/-- Networks::refresh_networks_list (network.rs lines 146 to 170): fold
the observation loop over the getifaddrs snapshot. -/
def refresh_networks_list (interfaces : List (String × NetworkData))
    (addrs : List InterfaceAddress) (env : String → Option Ifmibdata) :
    List (String × NetworkData) :=
  addrs.foldl (refresh_step env) interfaces

/-! Memory aggregate, from src/freebsd/system.rs. -/

/-- The memory and swap fields of System (system.rs lines 44 to 47). -/
structure SystemMem where
  mem_free : ℕ
  mem_total : ℕ
  swap_total : ℕ
  swap_free : ℕ
deriving DecidableEq

/-- The raw sysctl readings consumed by System::refresh_memory, each none
when the query fails or yields the wrong variant: hw.pagesize,
hw.physmem, vm.stats.vm.v_free_count, vm.swap_total, and the summed
xsw_used times SW_MULTIPLIER over the swap devices. -/
structure MemEnv where
  pagesize : Option ℕ
  physmem : Option ℕ
  v_free_count : Option ℕ
  swap_total : Option ℕ
  swap_used : Option ℕ
deriving DecidableEq

/-- System::refresh_memory (system.rs lines 234 to 308): every field is
recomputed from its own sysctl with a zero fallback, the shifts by
KBITS_SHIFT are divisions by 1024, and no cross-field check relates free
to total; the function always succeeds. -/
def refresh_memory (s : SystemMem) (env : MemEnv) : SystemMem :=
  let pagesize := env.pagesize.getD 4096
  let mem_total := (env.physmem.map fun total_count => total_count / 1024).getD 0
  let mem_free :=
    (env.v_free_count.map fun free_count => free_count * pagesize % U64_MOD / 1024).getD 0
  let swap_total := (env.swap_total.map fun st => st / 1024).getD 0
  let swap_free :=
    match env.swap_used with
    | some swap_used => sub64 swap_total swap_used
    | none => s.swap_free
  { mem_free := mem_free, mem_total := mem_total,
    swap_total := swap_total, swap_free := swap_free }

/-- System::get_used_memory (system.rs lines 483 to 485): u64 subtraction
total minus free. -/
def get_used_memory (s : SystemMem) : ℕ := sub64 s.mem_total s.mem_free

/-- System::get_used_swap (system.rs lines 495 to 497): u64 subtraction
total minus free. -/
def get_used_swap (s : SystemMem) : ℕ := sub64 s.swap_total s.swap_free

/-! Concrete values used by the witnesses and counterexamples. -/

/-- The all-zero tick sample. -/
def ctA : CpuTime := ⟨0, 0, 0, 0, 0⟩

/-- The second sample of the spec example: 50 user ticks and 50 idle
ticks. -/
def ctB : CpuTime := ⟨50, 0, 0, 0, 50⟩

/-- A processor whose two stored samples are identical and whose derived
usage is nonzero, to exhibit the hold-previous behaviour. -/
def prHold : Processor := ⟨ctA, ctA, ⟨12, 3, 4, 5, 76⟩⟩

/-- Two concrete per-core percentage vectors for the global aggregate. -/
def pctA : CpuPct := ⟨10, 0, 20, 0, 70⟩

/-- Second concrete per-core percentage vector. -/
def pctB : CpuPct := ⟨30, 0, 10, 0, 60⟩

/-- A concrete cached process record. -/
def exProc : Process :=
  { pid := 42, ppid := none, start := 1, comm := "init", size := 100,
    rssize := 30, ssize := 8, stat := ProcessStatus.Runnable, env := ["A=1"],
    argv := ["init"], files := ⟨"/", "/"⟩, exe := "/sbin/init", cpu := 0,
    disk_usage := ⟨0, 0, 0, 0⟩ }

/-- A table holding exProc under pid 42. -/
def exTable : List (ℤ × Process) := [(42, exProc)]

/-- A snapshot record whose own pid is 43, handed to a refresh of pid 42. -/
def exRec43 : KinfoProc :=
  { ki_pid := 43, ki_ppid := 1, ki_size := 200, ki_ssize := 16,
    ki_rssize := 60, ki_stat := 3, ki_comm := "other", ki_start := 5,
    ru_inblock := 0, ru_oublock := 0, ki_pctcpu := 0, env := [],
    argv := ["other"], files := ⟨"/", "/tmp"⟩, exe := "/bin/other" }

/-- A snapshot record whose own pid is 42, matching exTable. -/
def exRec42 : KinfoProc :=
  { ki_pid := 42, ki_ppid := 1, ki_size := 200, ki_ssize := 16,
    ki_rssize := 60, ki_stat := 3, ki_comm := "changed", ki_start := 5,
    ru_inblock := 0, ru_oublock := 0, ki_pctcpu := 0, env := ["B=2"],
    argv := ["changed"], files := ⟨"/", "/tmp"⟩, exe := "/bin/changed" }

/-- The eth0 interface address record. -/
def ethAddr : InterfaceAddress := ⟨"eth0", true⟩

/-- First observed counters for eth0: 1000 bytes in, 500 bytes out. -/
def ifd1 : Ifmibdata := ⟨1500, 1000, 500, 10, 5, 0, 0⟩

/-- Second observed counters for eth0: 1500 bytes in, 600 bytes out. -/
def ifd2 : Ifmibdata := ⟨1500, 1500, 600, 20, 8, 0, 0⟩

/-- Kernel query returning ifd1 for eth0. -/
def env1 : String → Option Ifmibdata :=
  fun n => if n = "eth0" then some ifd1 else none

/-- Kernel query returning ifd2 for eth0. -/
def env2 : String → Option Ifmibdata :=
  fun n => if n = "eth0" then some ifd2 else none

/-- The registry after inserting eth0 from ifd1. -/
def nets1 : List (String × NetworkData) := refresh_networks_list [] [ethAddr] env1

/-- The registry after the second refresh of eth0 from ifd2. -/
def nets2 : List (String × NetworkData) := refresh_networks_list nets1 [ethAddr] env2

/-- The tracker stored for eth0 after the first refresh. -/
def ndEth1 : NetworkData :=
  NetworkData.refresh_counters { NetworkData.default with ifaddrs := [ethAddr] } env1

/-- An interface address for a different interface name. -/
def wlanAddr : InterfaceAddress := ⟨"wlan0", true⟩

/-- A tracker whose stored received total is 1500 and whose previously
derived last interval is 7, about to observe a counter reset. -/
def ndWrap : NetworkData :=
  ⟨[ethAddr], 1500, 1500, 600, 20, 8, 0, 0, 7, 100, 10, 3, 0, 0⟩

/-- Kernel query reporting a reset receive counter of 900 for eth0. -/
def envWrap : String → Option Ifmibdata :=
  fun n => if n = "eth0" then some (⟨1500, 900, 700, 21, 9, 0, 0⟩ : Ifmibdata) else none

/-- The corrupted memory reading of the spec example: physmem yields a
total of 16,000,000 KB while the free-page count yields 17,000,000 KB
free. -/
def envBad : MemEnv := ⟨none, some 16384000000, some 4250000, none, none⟩

/-- The memory aggregate produced from envBad. -/
def memBad : SystemMem := ⟨17000000, 16000000, 0, 0⟩

/-! Characterization lemmas for the association-list map. -/

theorem mlookup_minsert_self {κ α : Type} [DecidableEq κ]
    (t : List (κ × α)) (k : κ) (v : α) : mlookup (minsert t k v) k = some v := by
  induction t with
  | nil => simp [minsert, mlookup]
  | cons hd tl ih =>
    obtain ⟨k0, w⟩ := hd
    by_cases h : k0 = k
    · simp [minsert, h, mlookup]
    · simp [minsert, h, mlookup, ih]

theorem mlookup_minsert_ne {κ α : Type} [DecidableEq κ]
    (t : List (κ × α)) (k : κ) (v : α) (q : κ) (h : k ≠ q) :
    mlookup (minsert t k v) q = mlookup t q := by
  induction t with
  | nil => simp [minsert, mlookup, h]
  | cons hd tl ih =>
    obtain ⟨k0, w⟩ := hd
    by_cases h0 : k0 = k
    · subst h0
      simp [minsert, mlookup, h]
    · by_cases hq : k0 = q
      · have hqk : ¬ q = k := fun hc => h hc.symm
        simp [minsert, mlookup, h0, hq, hqk]
      · simp [minsert, mlookup, h0, hq, ih]

theorem isSome_mlookup_minsert {κ α : Type} [DecidableEq κ]
    (t : List (κ × α)) (k : κ) (v : α) (q : κ) :
    (mlookup (minsert t k v) q).isSome ↔ q = k ∨ (mlookup t q).isSome := by
  by_cases h : k = q
  · subst h
    rw [mlookup_minsert_self]
    simp
  · rw [mlookup_minsert_ne t k v q h]
    have hqk : ¬ q = k := fun hc => h hc.symm
    simp [hqk]

/-! Lemmas about the network refresh step. -/

theorem refresh_counters_ifaddrs (nd : NetworkData) (env : String → Option Ifmibdata) :
    (nd.refresh_counters env).ifaddrs = nd.ifaddrs := by
  unfold NetworkData.refresh_counters
  cases findIfdata env nd.ifaddrs <;> rfl

theorem findIfdata_append_same (env : String → Option Ifmibdata)
    (l : List InterfaceAddress) (a : InterfaceAddress) (d : Ifmibdata)
    (hall : ∀ x ∈ l, x.interface_name = a.interface_name)
    (hd : env a.interface_name = some d) :
    findIfdata env (l ++ [a]) = some d := by
  cases l with
  | nil => simp [findIfdata, hd]
  | cons x rest =>
    have hx : env x.interface_name = some d := by
      rw [hall x (List.mem_cons_self x rest), hd]
    simp [findIfdata, hx]

theorem refresh_networks_list_cons (interfaces : List (String × NetworkData))
    (a : InterfaceAddress) (rest : List InterfaceAddress)
    (env : String → Option Ifmibdata) :
    refresh_networks_list interfaces (a :: rest) env =
      refresh_networks_list (refresh_step env interfaces a) rest env := rfl

theorem refresh_step_lookup_ne (env : String → Option Ifmibdata)
    (m : List (String × NetworkData)) (a : InterfaceAddress) (name : String)
    (h : a.interface_name ≠ name) :
    mlookup (refresh_step env m a) name = mlookup m name := by
  unfold refresh_step
  by_cases ha : a.has_address
  · simp only [ha, if_true]
    cases mlookup m a.interface_name <;>
      exact mlookup_minsert_ne _ _ _ _ h
  · simp [ha]

theorem refresh_step_isSome (env : String → Option Ifmibdata)
    (m : List (String × NetworkData)) (a : InterfaceAddress) (name : String)
    (h : (mlookup m name).isSome) :
    (mlookup (refresh_step env m a) name).isSome := by
  unfold refresh_step
  by_cases ha : a.has_address
  · simp only [ha, if_true]
    cases mlookup m a.interface_name <;>
      exact (isSome_mlookup_minsert _ _ _ _).mpr (Or.inr h)
  · simpa [ha] using h

/-! Arithmetic facts about the wrapping u64 subtraction. -/

theorem sub64_of_le (a b : ℕ) (ha : a < U64_MOD) (h : b ≤ a) :
    sub64 a b = a - b := by
  unfold sub64 U64_MOD at *
  omega

theorem sub64_of_lt (a b : ℕ) (hb : b < U64_MOD) (h : a < b) :
    sub64 a b = U64_MOD + a - b ∧ a < sub64 a b := by
  unfold sub64 U64_MOD at *
  omega

/-- C1: for every pair of CPU time samples whose five bucket deltas have a
non-positive total, pct_diff returns None without dividing, and
refresh_and_get_cpu_usages leaves the processor, in particular its
previously derived usage percentages, unchanged; the new percentages are
installed exactly when the total delta is strictly positive. -/
theorem claim_C1_no_update (p : Processor) :
    (p.cp_time.total_diff p.last_cp_time ≤ 0 →
      p.refresh_and_get_cpu_usages = p ∧
        p.cp_time.pct_diff p.last_cp_time = none) ∧
    (0 < p.cp_time.total_diff p.last_cp_time →
      ∃ d, p.cp_time.pct_diff p.last_cp_time = some d ∧
        p.refresh_and_get_cpu_usages = { p with cpu_pct := d }) := by
  constructor
  · intro h
    have hn : ¬ 0 < p.cp_time.total_diff p.last_cp_time := not_lt.mpr h
    have hp : p.cp_time.pct_diff p.last_cp_time = none := by
      unfold CpuTime.pct_diff
      rw [if_neg hn]
    refine ⟨?_, hp⟩
    unfold Processor.refresh_and_get_cpu_usages
    rw [hp]
  · intro h
    have hp : p.cp_time.pct_diff p.last_cp_time =
        some
          { user_pct := 100 * p.cp_time.user_diff p.last_cp_time /
              p.cp_time.total_diff p.last_cp_time
            nice_pct := 100 * p.cp_time.nice_diff p.last_cp_time /
              p.cp_time.total_diff p.last_cp_time
            system_pct := 100 * p.cp_time.system_diff p.last_cp_time /
              p.cp_time.total_diff p.last_cp_time
            interrupt_pct := 100 * p.cp_time.interrupt_diff p.last_cp_time /
              p.cp_time.total_diff p.last_cp_time
            idle_pct := 100 * p.cp_time.idle_diff p.last_cp_time /
              p.cp_time.total_diff p.last_cp_time } := by
      unfold CpuTime.pct_diff
      rw [if_pos h]
    refine ⟨_, hp, ?_⟩
    unfold Processor.refresh_and_get_cpu_usages
    rw [hp]

/-- C1 witness: a processor holding two identical samples and a nonzero
derived usage keeps that usage, and pct_diff yields None. -/
theorem claim_C1_witness :
    prHold.cp_time.total_diff prHold.last_cp_time ≤ 0 ∧
    (prHold.refresh_and_get_cpu_usages = prHold ∧
      prHold.cp_time.pct_diff prHold.last_cp_time = none) := by
  have h : prHold.cp_time.total_diff prHold.last_cp_time ≤ 0 := by
    norm_num [prHold, ctA, CpuTime.total_diff, CpuTime.user_diff, CpuTime.nice_diff,
      CpuTime.system_diff, CpuTime.interrupt_diff, CpuTime.idle_diff]
  exact ⟨h, (claim_C1_no_update prHold).1 h⟩

/-- C2: for every pair of CPU time samples with a strictly positive total
delta, pct_diff yields Some, and the five derived percentages, each
computed as 100 times the bucket delta over the total delta, sum to 100
within one thousandth. -/
theorem claim_C2_pct_sum (cur prev : CpuTime) (h : 0 < cur.total_diff prev) :
    ∃ d, cur.pct_diff prev = some d ∧
      abs (d.user_pct + d.nice_pct + d.system_pct + d.interrupt_pct +
        d.idle_pct - 100) ≤ 1 / 1000 := by
  refine ⟨_, by unfold CpuTime.pct_diff; rw [if_pos h], ?_⟩
  have ht : cur.total_diff prev ≠ 0 := ne_of_gt h
  have hsum : cur.user_diff prev + cur.nice_diff prev + cur.system_diff prev +
      cur.interrupt_diff prev + cur.idle_diff prev = cur.total_diff prev := rfl
  simp only
  rw [div_add_div_same, div_add_div_same, div_add_div_same, div_add_div_same]
  rw [show (100 : ℚ) * cur.user_diff prev + 100 * cur.nice_diff prev +
      100 * cur.system_diff prev + 100 * cur.interrupt_diff prev +
      100 * cur.idle_diff prev = 100 * cur.total_diff prev by rw [← hsum]; ring]
  rw [mul_div_assoc, div_self ht]
  norm_num

/-- C2 witness: the spec example, a first sample of all zeroes followed by
50 user ticks and 50 idle ticks, has a positive total delta, satisfies the
sum bound, and derives exactly 50 user, 50 idle, 0 elsewhere. -/
theorem claim_C2_witness :
    0 < ctB.total_diff ctA ∧
    (∃ d, ctB.pct_diff ctA = some d ∧
      abs (d.user_pct + d.nice_pct + d.system_pct + d.interrupt_pct +
        d.idle_pct - 100) ≤ 1 / 1000) ∧
    ctB.pct_diff ctA = some ⟨50, 0, 0, 0, 50⟩ := by
  have h : 0 < ctB.total_diff ctA := by
    norm_num [ctA, ctB, CpuTime.total_diff, CpuTime.user_diff, CpuTime.nice_diff,
      CpuTime.system_diff, CpuTime.interrupt_diff, CpuTime.idle_diff]
  refine ⟨h, claim_C2_pct_sum ctB ctA h, ?_⟩
  norm_num [ctA, ctB, CpuTime.pct_diff, CpuTime.total_diff, CpuTime.user_diff,
    CpuTime.nice_diff, CpuTime.system_diff, CpuTime.interrupt_diff,
    CpuTime.idle_diff]

/-- C3 counterexample: refresh_processes keeps the fold seed, so refreshing
a table holding pid 42 from an empty snapshot leaves the table, and pid
42, in place; the claimed discard-and-rebuild does not happen. -/
theorem claim_C3_counterexample :
    refresh_processes exTable [] = exTable ∧
    mlookup (refresh_processes exTable []) 42 = some exProc := ⟨rfl, rfl⟩

/-- C3 amended: a full refresh inserts or overwrites an entry for every
snapshot record but never discards existing entries: afterwards a pid is
present exactly when it was present before or occurs in the snapshot, and
refreshing from an empty snapshot leaves the table unchanged, stale dead
processes included. -/
theorem claim_C3_amended (t : List (ℤ × Process)) (snap : List KinfoProc) :
    refresh_processes t [] = t ∧
    ∀ pid, (mlookup (refresh_processes t snap) pid).isSome ↔
      (mlookup t pid).isSome ∨ pid ∈ snap.map KinfoProc.ki_pid := by
  refine ⟨rfl, ?_⟩
  intro pid
  induction snap generalizing t with
  | nil => simp [refresh_processes]
  | cons r rest ih =>
    have hstep : refresh_processes t (r :: rest) =
        refresh_processes (minsert t r.ki_pid (mkProcess r)) rest := rfl
    rw [hstep, ih, isSome_mlookup_minsert]
    simp only [List.map_cons, List.mem_cons]
    tauto

/-- C4 counterexample: a single-process refresh of pid 42 with a record
whose own identifier is 43 hits the assert_eq at system.rs line 399, a
fatal abort modelled as none, rather than the claimed silent failure that
returns false with the table unchanged. -/
theorem claim_C4_counterexample :
    refresh_process exTable 42 (some exRec43) = none ∧
    refresh_process exTable 42 (some exRec43) ≠ some (exTable, false) := by
  exact ⟨rfl, by decide⟩

/-- C4 amended: the single-process refresh updates the cached record if and
only if the pid is already present and the inbound record carries that
pid; when no record is available or the pid is absent it returns false
and leaves the table unchanged, and it never inserts or deletes an entry;
but an identifier mismatch fails the assert_eq assertion, a fatal abort,
not a silent false. -/
theorem claim_C4_amended (t : List (ℤ × Process)) (pid : ℤ)
    (kinfo : Option KinfoProc) :
    (kinfo = none → refresh_process t pid kinfo = some (t, false)) ∧
    (∀ r, kinfo = some r → r.ki_pid ≠ pid →
      refresh_process t pid kinfo = none) ∧
    (∀ r, kinfo = some r → r.ki_pid = pid → mlookup t pid = none →
      refresh_process t pid kinfo = some (t, false)) ∧
    (∀ r p, kinfo = some r → r.ki_pid = pid → mlookup t pid = some p →
      refresh_process t pid kinfo =
        some (minsert t pid
          { p with ppid := some r.ki_ppid, size := r.ki_size, ssize := r.ki_ssize, rssize := r.ki_rssize },
          true)) ∧
    (∀ t' b, refresh_process t pid kinfo = some (t', b) →
      (∀ q, (mlookup t' q).isSome ↔ (mlookup t q).isSome) ∧
      (b = false → t' = t)) := by
  refine ⟨?_, ?_, ?_, ?_, ?_⟩
  · rintro rfl
    rfl
  · rintro r rfl hne
    simp [refresh_process, hne]
  · rintro r rfl heq hnone
    subst heq
    simp [refresh_process, hnone]
  · rintro r p rfl heq hp
    subst heq
    simp [refresh_process, hp]
  · intro t' b hres
    rcases kinfo with _ | r
    · simp only [refresh_process, Option.some.injEq, Prod.mk.injEq] at hres
      obtain ⟨rfl, rfl⟩ := hres
      exact ⟨fun q => Iff.rfl, fun _ => rfl⟩
    · by_cases hid : r.ki_pid = pid
      · subst hid
        cases hpl : mlookup t r.ki_pid with
        | none =>
          simp only [refresh_process, hpl, if_true, eq_self_iff_true,
            Option.some.injEq, Prod.mk.injEq] at hres
          obtain ⟨rfl, rfl⟩ := hres
          exact ⟨fun q => Iff.rfl, fun _ => rfl⟩
        | some p =>
          simp only [refresh_process, hpl, if_true, eq_self_iff_true,
            Option.some.injEq, Prod.mk.injEq] at hres
          obtain ⟨rfl, rfl⟩ := hres
          refine ⟨?_, fun hb => by cases hb⟩
          intro q
          rw [isSome_mlookup_minsert]
          constructor
          · rintro (rfl | hq)
            · rw [hpl]
              rfl
            · exact hq
          · intro hq
            exact Or.inr hq
      · simp [refresh_process, hid] at hres

/-- C4 witness: with pid 42 present and a matching record, the refresh
installs the four updated fields and reports true; with no record
available, it reports false and leaves the table unchanged. -/
theorem claim_C4_witness :
    refresh_process exTable 42 (some exRec42) =
      some (minsert exTable 42
        { exProc with ppid := some 1, size := 200, ssize := 16, rssize := 60 },
        true) ∧
    refresh_process exTable 7 none = some (exTable, false) :=
  ⟨(claim_C4_amended exTable 42 (some exRec42)).2.2.2.1 exRec42 exProc rfl rfl rfl,
    (claim_C4_amended exTable 7 none).1 rfl⟩

/-- C9: a successful single-process refresh replaces the cached record by a
copy of it whose parent id, virtual size, stack size and resident size
come from the inbound record; the command name, arguments, environment,
executable path and every other field keep their values from initial
insertion, and every other table entry is untouched. -/
theorem claim_C9_frame (t : List (ℤ × Process)) (pid : ℤ) (r : KinfoProc)
    (p : Process) (hid : r.ki_pid = pid) (hp : mlookup t pid = some p) :
    ∃ t' p', refresh_process t pid (some r) = some (t', true) ∧
      mlookup t' pid = some p' ∧
      p' = { p with ppid := some r.ki_ppid, size := r.ki_size, ssize := r.ki_ssize, rssize := r.ki_rssize } ∧
      p'.pid = p.pid ∧ p'.start = p.start ∧ p'.comm = p.comm ∧ p'.stat = p.stat ∧
      p'.env = p.env ∧ p'.argv = p.argv ∧ p'.files = p.files ∧ p'.exe = p.exe ∧
      p'.cpu = p.cpu ∧ p'.disk_usage = p.disk_usage ∧
      p'.ppid = some r.ki_ppid ∧ p'.size = r.ki_size ∧ p'.ssize = r.ki_ssize ∧
      p'.rssize = r.ki_rssize ∧
      ∀ q, q ≠ pid → mlookup t' q = mlookup t q := by
  subst hid
  refine ⟨minsert t r.ki_pid
      { p with ppid := some r.ki_ppid, size := r.ki_size, ssize := r.ki_ssize, rssize := r.ki_rssize },
    { p with ppid := some r.ki_ppid, size := r.ki_size, ssize := r.ki_ssize, rssize := r.ki_rssize },
    ?_, mlookup_minsert_self _ _ _, rfl, rfl, rfl, rfl, rfl, rfl, rfl, rfl,
    rfl, rfl, rfl, rfl, rfl, rfl, rfl, ?_⟩
  · simp [refresh_process, hp]
  · intro q hq
    exact mlookup_minsert_ne _ _ _ _ (Ne.symm hq)

/-- C9 witness: the concrete refresh of pid 42 with a matching record. -/
theorem claim_C9_witness :
    exRec42.ki_pid = 42 ∧ mlookup exTable 42 = some exProc ∧
    (∃ t' p', refresh_process exTable 42 (some exRec42) = some (t', true) ∧
      mlookup t' 42 = some p' ∧
      p' = { exProc with ppid := some exRec42.ki_ppid, size := exRec42.ki_size, ssize := exRec42.ki_ssize, rssize := exRec42.ki_rssize } ∧
      p'.pid = exProc.pid ∧ p'.start = exProc.start ∧ p'.comm = exProc.comm ∧
      p'.stat = exProc.stat ∧ p'.env = exProc.env ∧ p'.argv = exProc.argv ∧
      p'.files = exProc.files ∧ p'.exe = exProc.exe ∧ p'.cpu = exProc.cpu ∧
      p'.disk_usage = exProc.disk_usage ∧
      p'.ppid = some exRec42.ki_ppid ∧ p'.size = exRec42.ki_size ∧
      p'.ssize = exRec42.ki_ssize ∧ p'.rssize = exRec42.ki_rssize ∧
      ∀ q, q ≠ 42 → mlookup t' q = mlookup exTable q) :=
  ⟨rfl, rfl, claim_C9_frame exTable 42 exRec42 exProc rfl rfl⟩

/-- C5 counterexample: the corrupted reading of the spec example, total
16,000,000 KB with free 17,000,000 KB, is accepted by refresh_memory
without any failure, and get_used_memory then returns the wrapped value
two to the 64 minus 1,000,000 KB, which exceeds the total. -/
theorem claim_C5_counterexample :
    refresh_memory ⟨0, 0, 0, 0⟩ envBad = memBad ∧
    get_used_memory memBad = 18446744073708551616 ∧
    memBad.mem_total < get_used_memory memBad := by
  refine ⟨by decide, by decide, by decide⟩

/-- C5 amended: used memory and used swap are the wrapping 64-bit
difference total minus free: the true difference whenever free is at most
total, but when a source reports free greater than total the subtraction
wraps to two to the 64 minus the excess, a huge value exceeding the
total; no failure path exists and the aggregate is not rejected. -/
theorem claim_C5_wrapping (s : SystemMem)
    (hmt : s.mem_total < U64_MOD) (hmf : s.mem_free < U64_MOD)
    (hst : s.swap_total < U64_MOD) (hsf : s.swap_free < U64_MOD) :
    (s.mem_free ≤ s.mem_total →
      get_used_memory s = s.mem_total - s.mem_free) ∧
    (s.mem_total < s.mem_free →
      get_used_memory s = U64_MOD + s.mem_total - s.mem_free ∧
        s.mem_total < get_used_memory s) ∧
    (s.swap_free ≤ s.swap_total →
      get_used_swap s = s.swap_total - s.swap_free) ∧
    (s.swap_total < s.swap_free →
      get_used_swap s = U64_MOD + s.swap_total - s.swap_free ∧
        s.swap_total < get_used_swap s) := by
  refine ⟨?_, ?_, ?_, ?_⟩
  · intro h
    exact sub64_of_le _ _ hmt h
  · intro h
    exact sub64_of_lt _ _ hmf h
  · intro h
    exact sub64_of_le _ _ hst h
  · intro h
    exact sub64_of_lt _ _ hsf h

/-- C5 witness: the in-range aggregate of the spec example, total
16,000,000 KB and free 4,000,000 KB, yields used 12,000,000 KB. -/
theorem claim_C5_witness :
    (⟨4000000, 16000000, 1000, 100⟩ : SystemMem).mem_total < U64_MOD ∧
    get_used_memory ⟨4000000, 16000000, 1000, 100⟩ = 12000000 := by
  refine ⟨by decide, ?_⟩
  have h := (claim_C5_wrapping ⟨4000000, 16000000, 1000, 100⟩
    (by decide) (by decide) (by decide) (by decide)).1 (by decide)
  simpa using h

/-- C8 counterexample: with zero logical CPUs the code still applies the
DivAssign impl, so the global aggregate becomes componentwise NaN from
0.0 divided by 0.0; it is not left at the all-zero default. -/
theorem claim_C8_counterexample :
    ProcessorSet.global_pct [] 0 =
      ⟨FQ.nan, FQ.nan, FQ.nan, FQ.nan, FQ.nan⟩ ∧
    ProcessorSet.global_pct [] 0 ≠ CpuPct.toF CpuPct.zero := by
  constructor
  · simp [ProcessorSet.global_pct, CpuPct.div_assign, fdiv, CpuPct.zero]
  · intro h
    have h2 := congrArg CpuPctF.user_pct h
    simp [ProcessorSet.global_pct, CpuPct.div_assign, fdiv, CpuPct.zero,
      CpuPct.toF] at h2

/-- C8 amended: the global aggregate is recomputed as the componentwise
sum of the per-core percentages divided by the logical CPU count; when
the count is positive every component is the finite quotient sum over
count, but when the count is zero the division is still performed with
IEEE semantics, so with no cores the aggregate becomes componentwise NaN
instead of staying at its all-zero default. -/
theorem claim_C8_global (cpus : List CpuPct) (n : ℕ) :
    (0 < n →
      ProcessorSet.global_pct cpus n =
        { user_pct := FQ.fin ((cpus.foldl CpuPct.add CpuPct.zero).user_pct / n)
          nice_pct := FQ.fin ((cpus.foldl CpuPct.add CpuPct.zero).nice_pct / n)
          system_pct := FQ.fin ((cpus.foldl CpuPct.add CpuPct.zero).system_pct / n)
          interrupt_pct := FQ.fin ((cpus.foldl CpuPct.add CpuPct.zero).interrupt_pct / n)
          idle_pct := FQ.fin ((cpus.foldl CpuPct.add CpuPct.zero).idle_pct / n) }) ∧
    ProcessorSet.global_pct [] 0 =
      ⟨FQ.nan, FQ.nan, FQ.nan, FQ.nan, FQ.nan⟩ := by
  constructor
  · intro hn
    have hne : n ≠ 0 := Nat.pos_iff_ne_zero.mp hn
    simp [ProcessorSet.global_pct, CpuPct.div_assign, fdiv, hne]
  · simp [ProcessorSet.global_pct, CpuPct.div_assign, fdiv, CpuPct.zero]

/-- C8 witness: two cores at finite percentages averaged over count 2. -/
theorem claim_C8_witness :
    0 < 2 ∧
    ProcessorSet.global_pct [pctA, pctB] 2 =
      { user_pct := FQ.fin (([pctA, pctB].foldl CpuPct.add CpuPct.zero).user_pct / 2)
        nice_pct := FQ.fin (([pctA, pctB].foldl CpuPct.add CpuPct.zero).nice_pct / 2)
        system_pct := FQ.fin (([pctA, pctB].foldl CpuPct.add CpuPct.zero).system_pct / 2)
        interrupt_pct := FQ.fin (([pctA, pctB].foldl CpuPct.add CpuPct.zero).interrupt_pct / 2)
        idle_pct := FQ.fin (([pctA, pctB].foldl CpuPct.add CpuPct.zero).idle_pct / 2) } :=
  ⟨by decide, (claim_C8_global [pctA, pctB] 2).1 (by decide)⟩

/-- C7: a refresh leaves every registry entry whose interface is absent
from the observed snapshot exactly as it was, counters and all, and never
deletes any entry. -/
theorem claim_C7_no_delete (nets : List (String × NetworkData))
    (addrs : List InterfaceAddress) (env : String → Option Ifmibdata)
    (name : String) :
    ((∀ a ∈ addrs, a.interface_name ≠ name) →
      mlookup (refresh_networks_list nets addrs env) name = mlookup nets name) ∧
    ((mlookup nets name).isSome →
      (mlookup (refresh_networks_list nets addrs env) name).isSome) := by
  induction addrs generalizing nets with
  | nil => exact ⟨fun _ => rfl, fun h => h⟩
  | cons a rest ih =>
    constructor
    · intro h
      rw [refresh_networks_list_cons,
        (ih (refresh_step env nets a)).1 fun x hx => h x (List.mem_cons_of_mem a hx),
        refresh_step_lookup_ne env nets a name (h a (List.mem_cons_self a rest))]
    · intro h
      rw [refresh_networks_list_cons]
      exact (ih _).2 (refresh_step_isSome env nets a name h)

/-- C7 witness: the eth0 entry survives, unchanged, a refresh whose
snapshot only observes wlan0. -/
theorem claim_C7_witness :
    (∀ a ∈ [wlanAddr], a.interface_name ≠ "eth0") ∧
    mlookup (refresh_networks_list nets1 [wlanAddr] env2) "eth0" =
      mlookup nets1 "eth0" :=
  ⟨by decide, (claim_C7_no_delete nets1 [wlanAddr] env2 "eth0").1 (by decide)⟩

/-- C10: an observation of an interface already in the registry appends
the observed address to the stored address list, with no clearing and no
deduplication, so across one refresh the list of an entry present at the
start grows by exactly the number of observations of that interface that
carry an address, and is never reduced. -/
theorem claim_C10_append (nets : List (String × NetworkData))
    (addrs : List InterfaceAddress) (env : String → Option Ifmibdata)
    (name : String) (nd : NetworkData) (h : mlookup nets name = some nd) :
    (∃ nd', mlookup (refresh_networks_list nets addrs env) name = some nd' ∧
      nd'.ifaddrs.length = nd.ifaddrs.length +
        (addrs.filter fun a =>
          a.has_address && decide (a.interface_name = name)).length) ∧
    (∀ (m : List (String × NetworkData)) (a : InterfaceAddress)
        (env2 : String → Option Ifmibdata) (nd1 : NetworkData),
      a.has_address = true → mlookup m a.interface_name = some nd1 →
      ∃ nd2, mlookup (refresh_networks_list m [a] env2) a.interface_name =
          some nd2 ∧
        nd2.ifaddrs = nd1.ifaddrs ++ [a]) := by
  constructor
  · induction addrs generalizing nets nd with
    | nil => exact ⟨nd, h, by simp⟩
    | cons a rest ih =>
      rw [refresh_networks_list_cons]
      by_cases ha : a.has_address
      · by_cases hn : a.interface_name = name
        · subst hn
          have hstep : refresh_step env nets a =
              minsert nets a.interface_name
                (NetworkData.refresh_counters
                  { nd with ifaddrs := nd.ifaddrs ++ [a] } env) := by
            simp [refresh_step, ha, h]
          have hlook : mlookup (refresh_step env nets a) a.interface_name =
              some (NetworkData.refresh_counters
                { nd with ifaddrs := nd.ifaddrs ++ [a] } env) := by
            rw [hstep]
            exact mlookup_minsert_self _ _ _
          obtain ⟨nd', h1, h2⟩ := ih (refresh_step env nets a) _ hlook
          refine ⟨nd', h1, ?_⟩
          have hlen : (NetworkData.refresh_counters
              { nd with ifaddrs := nd.ifaddrs ++ [a] } env).ifaddrs.length =
              nd.ifaddrs.length + 1 := by
            rw [refresh_counters_ifaddrs]
            simp
          have hfil : (List.filter (fun x =>
              x.has_address && decide (x.interface_name = a.interface_name))
              (a :: rest)).length =
              (List.filter (fun x =>
                x.has_address && decide (x.interface_name = a.interface_name))
                rest).length + 1 := by
            simp [List.filter_cons, ha]
          rw [h2, hlen, hfil]
          omega
        · have hlook : mlookup (refresh_step env nets a) name = some nd := by
            rw [refresh_step_lookup_ne env nets a name hn, h]
          obtain ⟨nd', h1, h2⟩ := ih (refresh_step env nets a) nd hlook
          refine ⟨nd', h1, ?_⟩
          rw [h2]
          simp [List.filter_cons, hn]
      · have hstep : refresh_step env nets a = nets := by
          simp [refresh_step, ha]
        obtain ⟨nd', h1, h2⟩ := ih (refresh_step env nets a) nd (by rw [hstep]; exact h)
        refine ⟨nd', h1, ?_⟩
        rw [h2]
        simp [List.filter_cons, ha]
  · intro m a env2 nd1 ha h1
    have hstep : refresh_step env2 m a =
        minsert m a.interface_name
          (NetworkData.refresh_counters
            { nd1 with ifaddrs := nd1.ifaddrs ++ [a] } env2) := by
      simp [refresh_step, ha, h1]
    refine ⟨NetworkData.refresh_counters
        { nd1 with ifaddrs := nd1.ifaddrs ++ [a] } env2, ?_, ?_⟩
    · rw [show refresh_networks_list m [a] env2 = refresh_step env2 m a from rfl,
        hstep]
      exact mlookup_minsert_self _ _ _
    · rw [refresh_counters_ifaddrs]

/-- C10 witness: two observations of eth0 in one refresh grow its stored
address list from one to three entries. -/
theorem claim_C10_witness :
    mlookup nets1 "eth0" = some ndEth1 ∧
    ((∃ nd', mlookup (refresh_networks_list nets1 [ethAddr, ethAddr] env2) "eth0" =
        some nd' ∧
      nd'.ifaddrs.length = ndEth1.ifaddrs.length +
        ([ethAddr, ethAddr].filter fun a =>
          a.has_address && decide (a.interface_name = "eth0")).length) ∧
    (∀ (m : List (String × NetworkData)) (a : InterfaceAddress)
        (env2 : String → Option Ifmibdata) (nd1 : NetworkData),
      a.has_address = true → mlookup m a.interface_name = some nd1 →
      ∃ nd2, mlookup (refresh_networks_list m [a] env2) a.interface_name =
          some nd2 ∧
        nd2.ifaddrs = nd1.ifaddrs ++ [a])) :=
  ⟨rfl, claim_C10_append nets1 [ethAddr, ethAddr] env2 "eth0" ndEth1 rfl⟩

/-- C6 counterexample: a tracker storing a received total of 1500 that
observes a reset counter of 900 reports a last interval of two to the 64
minus 600, a wrapped huge value exceeding even the new cumulative total;
the delta is neither clamped to zero nor held at its previous value 7. -/
theorem claim_C6_counterexample :
    (ndWrap.refresh_counters envWrap).last_received_bytes = 18446744073709551016 ∧
    900 < (ndWrap.refresh_counters envWrap).last_received_bytes ∧
    (ndWrap.refresh_counters envWrap).last_received_bytes ≠ 0 ∧
    (ndWrap.refresh_counters envWrap).last_received_bytes ≠ 7 := by
  refine ⟨by decide, by decide, by decide, by decide⟩

/-- C6 amended: after a counter refresh of a tracked interface every last
interval field is the wrapping 64-bit difference of the newly observed
cumulative value against the previously stored total, and the stored
totals become the new cumulative values; the concrete eth0 example of
insert at rx 1000 tx 500 then refresh at rx 1500 tx 600 yields last
interval rx 500 tx 100 with totals rx 1500 tx 600; but when a new
cumulative value is smaller than the stored one the difference wraps
modulo two to the 64 to a huge value instead of being clamped. -/
theorem claim_C6_deltas :
    (∃ nd, mlookup nets2 "eth0" = some nd ∧
      nd.last_received_bytes = 500 ∧ nd.last_transmitted_bytes = 100 ∧
      nd.received_bytes = 1500 ∧ nd.transmitted_bytes = 600) ∧
    (∀ (m : List (String × NetworkData)) (a : InterfaceAddress)
        (env : String → Option Ifmibdata) (nd : NetworkData) (d : Ifmibdata),
      a.has_address = true →
      mlookup m a.interface_name = some nd →
      env a.interface_name = some d →
      (∀ x ∈ nd.ifaddrs, x.interface_name = a.interface_name) →
      ∃ nd', mlookup (refresh_networks_list m [a] env) a.interface_name =
          some nd' ∧
        nd'.last_received_bytes = sub64 d.ifi_ibytes nd.received_bytes ∧
        nd'.last_transmitted_bytes = sub64 d.ifi_obytes nd.transmitted_bytes ∧
        nd'.last_received_packets = sub64 d.ifi_ipackets nd.received_packets ∧
        nd'.last_transmitted_packets = sub64 d.ifi_opackets nd.transmitted_packets ∧
        nd'.last_receive_errors = sub64 d.ifi_ierrors nd.receive_errors ∧
        nd'.last_transmit_errors = sub64 d.ifi_oerrors nd.transmit_errors ∧
        nd'.received_bytes = d.ifi_ibytes ∧ nd'.transmitted_bytes = d.ifi_obytes ∧
        nd'.received_packets = d.ifi_ipackets ∧
        nd'.transmitted_packets = d.ifi_opackets ∧
        nd'.receive_errors = d.ifi_ierrors ∧
        nd'.transmit_errors = d.ifi_oerrors) ∧
    (∀ (nd : NetworkData) (env : String → Option Ifmibdata) (d : Ifmibdata),
      findIfdata env nd.ifaddrs = some d →
      d.ifi_ibytes < nd.received_bytes → nd.received_bytes < U64_MOD →
      (nd.refresh_counters env).last_received_bytes =
        U64_MOD + d.ifi_ibytes - nd.received_bytes ∧
      d.ifi_ibytes < (nd.refresh_counters env).last_received_bytes) := by
  refine ⟨⟨_, rfl, by decide, by decide, by decide, by decide⟩, ?_, ?_⟩
  · intro m a env nd d ha hm he hall
    have hstep : refresh_step env m a =
        minsert m a.interface_name
          (NetworkData.refresh_counters
            { nd with ifaddrs := nd.ifaddrs ++ [a] } env) := by
      simp [refresh_step, ha, hm]
    have hfind : findIfdata env (nd.ifaddrs ++ [a]) = some d :=
      findIfdata_append_same env nd.ifaddrs a d hall he
    have hrc : NetworkData.refresh_counters
        { nd with ifaddrs := nd.ifaddrs ++ [a] } env =
        applyIfdata { nd with ifaddrs := nd.ifaddrs ++ [a] } d := by
      unfold NetworkData.refresh_counters
      rw [show ({ nd with ifaddrs := nd.ifaddrs ++ [a] } : NetworkData).ifaddrs =
        nd.ifaddrs ++ [a] from rfl, hfind]
    refine ⟨applyIfdata { nd with ifaddrs := nd.ifaddrs ++ [a] } d, ?_,
      rfl, rfl, rfl, rfl, rfl, rfl, rfl, rfl, rfl, rfl, rfl, rfl⟩
    rw [show refresh_networks_list m [a] env = refresh_step env m a from rfl,
      hstep, hrc]
    exact mlookup_minsert_self _ _ _
  · intro nd env d hf hlt hb
    have hrc : nd.refresh_counters env = applyIfdata nd d := by
      unfold NetworkData.refresh_counters
      rw [hf]
    rw [hrc]
    exact sub64_of_lt d.ifi_ibytes nd.received_bytes hb hlt

/-- C6 witness: the general delta law applied to the concrete second
refresh of eth0. -/
theorem claim_C6_witness :
    ethAddr.has_address = true ∧
    mlookup nets1 ethAddr.interface_name = some ndEth1 ∧
    env2 ethAddr.interface_name = some ifd2 ∧
    (∀ x ∈ ndEth1.ifaddrs, x.interface_name = ethAddr.interface_name) ∧
    (∃ nd', mlookup (refresh_networks_list nets1 [ethAddr] env2)
        ethAddr.interface_name = some nd' ∧
      nd'.last_received_bytes = sub64 ifd2.ifi_ibytes ndEth1.received_bytes ∧
      nd'.last_transmitted_bytes = sub64 ifd2.ifi_obytes ndEth1.transmitted_bytes ∧
      nd'.last_received_packets = sub64 ifd2.ifi_ipackets ndEth1.received_packets ∧
      nd'.last_transmitted_packets =
        sub64 ifd2.ifi_opackets ndEth1.transmitted_packets ∧
      nd'.last_receive_errors = sub64 ifd2.ifi_ierrors ndEth1.receive_errors ∧
      nd'.last_transmit_errors = sub64 ifd2.ifi_oerrors ndEth1.transmit_errors ∧
      nd'.received_bytes = ifd2.ifi_ibytes ∧
      nd'.transmitted_bytes = ifd2.ifi_obytes ∧
      nd'.received_packets = ifd2.ifi_ipackets ∧
      nd'.transmitted_packets = ifd2.ifi_opackets ∧
      nd'.receive_errors = ifd2.ifi_ierrors ∧
      nd'.transmit_errors = ifd2.ifi_oerrors) :=
  ⟨rfl, rfl, rfl, by decide,
    claim_C6_deltas.2.1 nets1 ethAddr env2 ndEth1 ifd2 rfl rfl rfl (by decide)⟩

end Sysinfo
